import Mathlib

/-!
Shallow embedding of the real-time audio streaming/playback engine of the
catalyst repository (src/components/interview/interview-room.tsx, the
improved variant of the component), together with proofs about it.

Strings are modelled as lists of UTF-16 code units (natural numbers), byte
arrays as lists of naturals below 256, and floating-point sample values as
rationals.  Fallible operations return `Except String`.
-/

namespace Catalyst

/-! ### Base64 byte codec (model of the platform btoa / atob primitives)

`encode` builds a latin-1 string whose code units are the bytes and applies
`btoa`; `decode` applies `atob` and reads the code units back.  We model
`btoa` / `atob` directly on the lists of code units, using the standard
base64 alphabet. -/

/-- Standard base64 alphabet: sextet value to ASCII code. -/
def sextetToCode (s : Nat) : Nat :=
  if s < 26 then 65 + s
  else if s < 52 then 97 + (s - 26)
  else if s < 62 then 48 + (s - 52)
  else if s = 62 then 43
  else 47

/-- Standard base64 alphabet: ASCII code back to sextet value, `none` on a
code outside the alphabet. -/
def codeToSextet (c : Nat) : Option Nat :=
  if 65 ≤ c ∧ c ≤ 90 then some (c - 65)
  else if 97 ≤ c ∧ c ≤ 122 then some (26 + (c - 97))
  else if 48 ≤ c ∧ c ≤ 57 then some (52 + (c - 48))
  else if c = 43 then some 62
  else if c = 47 then some 63
  else none

/-- Model of `btoa` on a list of byte values: groups of three bytes become
four alphabet codes, with `=` (code 61) padding for a final group of one or
two bytes. -/
def btoaBytes : List Nat → List Nat
  | [] => []
  | [b0] =>
      [sextetToCode (b0 / 4), sextetToCode (b0 % 4 * 16), 61, 61]
  | [b0, b1] =>
      [sextetToCode (b0 / 4), sextetToCode (b0 % 4 * 16 + b1 / 16),
       sextetToCode (b1 % 16 * 4), 61]
  | b0 :: b1 :: b2 :: rest =>
      sextetToCode (b0 / 4) :: sextetToCode (b0 % 4 * 16 + b1 / 16) ::
      sextetToCode (b1 % 16 * 4 + b2 / 64) :: sextetToCode (b2 % 64) ::
      btoaBytes rest

/-- Model of `atob` on a list of code units: groups of four codes become
three bytes, a final `xx==` group one byte and a final `xxx=` group two
bytes; `none` on anything else (the platform primitive throws). -/
def atobBytes : List Nat → Option (List Nat)
  | [] => some []
  | e0 :: e1 :: e2 :: e3 :: rest =>
      match codeToSextet e0, codeToSextet e1 with
      | some s0, some s1 =>
          if e2 = 61 then
            if e3 = 61 ∧ rest = [] then some [s0 * 4 + s1 / 16] else none
          else
            match codeToSextet e2 with
            | some s2 =>
                if e3 = 61 then
                  if rest = [] then
                    some [s0 * 4 + s1 / 16, s1 % 16 * 16 + s2 / 4]
                  else none
                else
                  match codeToSextet e3 with
                  | some s3 =>
                      (atobBytes rest).map (fun r =>
                        (s0 * 4 + s1 / 16) :: (s1 % 16 * 16 + s2 / 4) ::
                        (s2 % 4 * 64 + s3) :: r)
                  | none => none
            | none => none
      | _, _ => none
  | _ => none

/-- Source function `encode(bytes)`: builds a binary string from the bytes
and base64-encodes it. -/
def encode (bytes : List Nat) : List Nat := btoaBytes bytes

/-- Source function `decode(base64)`: `atob` plus reading the code units
back into a byte array; the catch block rethrows
`Invalid audio data format`. -/
def decode (base64 : List Nat) : Except String (List Nat) :=
  match atobBytes base64 with
  | some bytes => .ok bytes
  | none => .error "Invalid audio data format"

lemma codeToSextet_sextetToCode : ∀ s < 64, codeToSextet (sextetToCode s) = some s := by
  decide

lemma sextetToCode_ne_61 : ∀ s < 64, sextetToCode s ≠ 61 := by
  decide

lemma sextetToCode_lt (s : Nat) : sextetToCode s < 256 := by
  unfold sextetToCode
  split <;> [omega; skip]
  split <;> [omega; skip]
  split <;> [omega; skip]
  split <;> omega

lemma atob_btoa (l : List Nat) (hl : ∀ b ∈ l, b < 256) :
    atobBytes (btoaBytes l) = some l := by
  induction l using btoaBytes.induct with
  | case1 =>
      simp [btoaBytes, atobBytes]
  | case2 b0 =>
      have h0 : b0 < 256 := hl b0 (by simp)
      have e0 : codeToSextet (sextetToCode (b0 / 4)) = some (b0 / 4) :=
        codeToSextet_sextetToCode _ (by omega)
      have e1 : codeToSextet (sextetToCode (b0 % 4 * 16)) = some (b0 % 4 * 16) :=
        codeToSextet_sextetToCode _ (by omega)
      simp [btoaBytes, atobBytes, e0, e1]
      omega
  | case3 b0 b1 =>
      have h0 : b0 < 256 := hl b0 (by simp)
      have h1 : b1 < 256 := hl b1 (by simp)
      have e0 : codeToSextet (sextetToCode (b0 / 4)) = some (b0 / 4) :=
        codeToSextet_sextetToCode _ (by omega)
      have e1 : codeToSextet (sextetToCode (b0 % 4 * 16 + b1 / 16)) =
          some (b0 % 4 * 16 + b1 / 16) :=
        codeToSextet_sextetToCode _ (by omega)
      have e2 : codeToSextet (sextetToCode (b1 % 16 * 4)) = some (b1 % 16 * 4) :=
        codeToSextet_sextetToCode _ (by omega)
      have n2 : sextetToCode (b0 % 4 * 16 + b1 / 16) ≠ 61 :=
        sextetToCode_ne_61 _ (by omega)
      simp [btoaBytes, atobBytes, e0, e1, e2, sextetToCode_ne_61 (b1 % 16 * 4) (by omega)]
      omega
  | case4 b0 b1 b2 rest ih =>
      have h0 : b0 < 256 := hl b0 (by simp)
      have h1 : b1 < 256 := hl b1 (by simp)
      have h2 : b2 < 256 := hl b2 (by simp)
      have hrest : ∀ b ∈ rest, b < 256 := fun b hb => hl b (by simp [hb])
      have e0 : codeToSextet (sextetToCode (b0 / 4)) = some (b0 / 4) :=
        codeToSextet_sextetToCode _ (by omega)
      have e1 : codeToSextet (sextetToCode (b0 % 4 * 16 + b1 / 16)) =
          some (b0 % 4 * 16 + b1 / 16) :=
        codeToSextet_sextetToCode _ (by omega)
      have e2 : codeToSextet (sextetToCode (b1 % 16 * 4 + b2 / 64)) =
          some (b1 % 16 * 4 + b2 / 64) :=
        codeToSextet_sextetToCode _ (by omega)
      have e3 : codeToSextet (sextetToCode (b2 % 64)) = some (b2 % 64) :=
        codeToSextet_sextetToCode _ (by omega)
      have n2 : sextetToCode (b1 % 16 * 4 + b2 / 64) ≠ 61 :=
        sextetToCode_ne_61 _ (by omega)
      have n3 : sextetToCode (b2 % 64) ≠ 61 :=
        sextetToCode_ne_61 _ (by omega)
      simp [btoaBytes, atobBytes, e0, e1, e2, e3, n2, n3, ih hrest]
      omega

/-! ### PCM codec: `createBlob` and `decodeAudioData`

Float samples are rationals.  Assigning a float to an `Int16Array` slot
truncates toward zero and wraps modulo 2^16 into the signed 16-bit range
(the ECMAScript ToInt16 conversion). -/

/-- Truncation toward zero of a rational, as in the ECMAScript number to
integer conversion. -/
def jsTrunc (q : ℚ) : ℤ :=
  if 0 ≤ q then ⌊q⌋ else ⌈q⌉

/-- ECMAScript ToInt16: truncate toward zero, wrap modulo 2^16 into
[-32768, 32767]. -/
def toInt16 (q : ℚ) : ℤ :=
  (jsTrunc q + 32768) % 65536 - 32768

/-- Source expression `Math.max(-32768, Math.min(32767, v * 32768))` in
`createBlob`. -/
def clampSample (v : ℚ) : ℚ :=
  max (-32768) (min 32767 (v * 32768))

/-- The `Int16Array` that `createBlob` fills from the float samples. -/
def createBlobInt16 (data : List ℚ) : List ℤ :=
  data.map (fun v => toInt16 (clampSample v))

/-- Little-endian byte pair of a signed 16-bit value, as seen through the
`Uint8Array` view of the `Int16Array` buffer. -/
def int16ToBytes (z : ℤ) : List Nat :=
  [(z % 65536).toNat % 256, (z % 65536).toNat / 256]

/-- Byte image of a list of signed 16-bit values. -/
def int16sToBytes (zs : List ℤ) : List Nat :=
  zs.flatMap int16ToBytes

/-- Source function `createBlob(data)`: clamp, scale by 32768, truncate to
int16, view as little-endian bytes, base64-encode; the mime type is fixed. -/
def createBlobData (data : List ℚ) : List Nat :=
  encode (int16sToBytes (createBlobInt16 data))

/-- Reading two consecutive bytes of the buffer as one little-endian signed
16-bit integer (the `Int16Array` view used by `decodeAudioData`). -/
def bytesToInt16 (lo hi : Nat) : ℤ :=
  if lo % 256 + hi % 256 * 256 < 32768 then ((lo % 256 + hi % 256 * 256 : Nat) : ℤ)
  else ((lo % 256 + hi % 256 * 256 : Nat) : ℤ) - 65536

/-- The `Int16Array` view of a byte array: consecutive little-endian pairs,
a trailing odd byte is dropped (the view has length `floor(len / 2)`). -/
def bytesToInt16List : List Nat → List ℤ
  | lo :: hi :: rest => bytesToInt16 lo hi :: bytesToInt16List rest
  | _ => []

/-- The int16-to-float conversion of `decodeAudioData` applied to a whole
byte array: each little-endian 16-bit sample divided by 32768.0. -/
def decodePCMMono (bytes : List Nat) : List ℚ :=
  (bytesToInt16List bytes).map (fun (z : ℤ) => (z : ℚ) / 32768)

/-- Result of `decodeAudioData`: the `AudioBuffer` contents. -/
structure DecodedBuffer where
  numChannels : Nat
  sampleRate : Nat
  samplesPerChannel : Nat
  channels : List (List ℚ)
  deriving Repr, DecidableEq

/-- Duration in seconds of a decoded buffer (`AudioBuffer.duration`). -/
def DecodedBuffer.duration (b : DecodedBuffer) : ℚ :=
  (b.samplesPerChannel : ℚ) / (b.sampleRate : ℚ)

/-- Source function `decodeAudioData(data, ctx, sampleRate, numChannels)`
of the improved variant: computes `samplesPerChannel = floor(len / 2 /
numChannels)` and fails on zero; converts the first `samplesPerChannel`
int16 values to floats; assigns them directly for one channel, otherwise
de-interleaves with `dataFloat32[i * numChannels + ch] ?? 0`.  The catch
block rethrows with the `Audio decoding failed` prefix. -/
def decodeAudioDataE (data : List Nat) (sampleRate numChannels : Nat) :
    Except String DecodedBuffer :=
  let samplesPerChannel := data.length / 2 / numChannels
  if samplesPerChannel = 0 then
    .error "Audio decoding failed: Invalid audio data length"
  else
    let dataInt16 := bytesToInt16List data
    let dataFloat32 := (dataInt16.take samplesPerChannel).map
      (fun (z : ℤ) => (z : ℚ) / 32768)
    let channels :=
      if numChannels = 1 then [dataFloat32]
      else (List.range numChannels).map (fun ch =>
        (List.range samplesPerChannel).map (fun i =>
          dataFloat32.getD (i * numChannels + ch) 0))
    .ok ⟨numChannels, sampleRate, samplesPerChannel, channels⟩

lemma int16ToBytes_lt (z : ℤ) : ∀ b ∈ int16ToBytes z, b < 256 := by
  intro b hb
  unfold int16ToBytes at hb
  have h : (z % 65536).toNat < 65536 := by omega
  simp at hb
  rcases hb with hb | hb <;> omega

lemma int16sToBytes_lt (zs : List ℤ) : ∀ b ∈ int16sToBytes zs, b < 256 := by
  intro b hb
  unfold int16sToBytes at hb
  rw [List.mem_flatMap] at hb
  obtain ⟨z, _, hz⟩ := hb
  exact int16ToBytes_lt z b hz

lemma bytesToInt16_int16ToBytes (z : ℤ) (h1 : -32768 ≤ z) (h2 : z ≤ 32767) :
    bytesToInt16 ((z % 65536).toNat % 256) ((z % 65536).toNat / 256) = z := by
  unfold bytesToInt16
  have h : 0 ≤ z % 65536 := Int.emod_nonneg z (by norm_num)
  have h' : z % 65536 < 65536 := Int.emod_lt_of_pos z (by norm_num)
  split_ifs with hif <;> omega

lemma bytesToInt16List_int16sToBytes (zs : List ℤ)
    (h : ∀ z ∈ zs, -32768 ≤ z ∧ z ≤ 32767) :
    bytesToInt16List (int16sToBytes zs) = zs := by
  induction zs with
  | nil => rfl
  | cons z rest ih =>
      have hz := h z (by simp)
      have hrest : ∀ z ∈ rest, -32768 ≤ z ∧ z ≤ 32767 :=
        fun z hzm => h z (by simp [hzm])
      rw [int16sToBytes, List.flatMap_cons, int16ToBytes]
      simp only [List.cons_append, List.nil_append, bytesToInt16List]
      rw [bytesToInt16_int16ToBytes z hz.1 hz.2, ← int16sToBytes]
      simp only [List.append_eq, List.nil_append]
      rw [ih hrest]

lemma toInt16_range (q : ℚ) : -32768 ≤ toInt16 q ∧ toInt16 q ≤ 32767 := by
  unfold toInt16
  have h : 0 ≤ (jsTrunc q + 32768) % 65536 := Int.emod_nonneg _ (by norm_num)
  have h' : (jsTrunc q + 32768) % 65536 < 65536 := Int.emod_lt_of_pos _ (by norm_num)
  omega

/-- Quantization error of one clamped, truncated sample. -/
lemma toInt16_clamp_close (v : ℚ) (h1 : -1 ≤ v) (h2 : v ≤ 1) :
    |(toInt16 (clampSample v) : ℚ) / 32768 - v| ≤ 1 / 32768 := by
  have hq1 : -32768 ≤ v * 32768 := by linarith
  have hq2 : v * 32768 ≤ 32768 := by linarith
  have hc1 : -32768 ≤ clampSample v := le_max_left _ _
  have hc2 : clampSample v ≤ 32767 := by
    unfold clampSample
    exact max_le (by norm_num) (min_le_left _ _)
  have htr1 : -32768 ≤ jsTrunc (clampSample v) := by
    unfold jsTrunc
    split_ifs with h
    · exact Int.le_floor.mpr (by exact_mod_cast hc1)
    · have : ((-32768 : ℤ) : ℚ) ≤ ⌈clampSample v⌉ :=
        le_trans (by exact_mod_cast hc1) (Int.le_ceil _)
      exact_mod_cast this
  have htr2 : jsTrunc (clampSample v) ≤ 32767 := by
    unfold jsTrunc
    split_ifs with h
    · have : (⌊clampSample v⌋ : ℚ) ≤ ((32767 : ℤ) : ℚ) :=
        le_trans (Int.floor_le _) (by exact_mod_cast hc2)
      exact_mod_cast this
    · exact Int.ceil_le.mpr (by exact_mod_cast hc2)
  have hwrap : toInt16 (clampSample v) = jsTrunc (clampSample v) := by
    unfold toInt16
    omega
  have htrunc : |(jsTrunc (clampSample v) : ℚ) - clampSample v| ≤ 1 := by
    unfold jsTrunc
    split_ifs with h
    · rw [abs_le]
      refine ⟨?_, ?_⟩
      · have := Int.sub_one_lt_floor (clampSample v)
        linarith
      · have := Int.floor_le (clampSample v)
        linarith
    · rw [abs_le]
      refine ⟨?_, ?_⟩
      · have := Int.le_ceil (clampSample v)
        linarith
      · have := Int.ceil_lt_add_one (clampSample v)
        linarith
  have hkey : |(toInt16 (clampSample v) : ℚ) - v * 32768| ≤ 1 := by
    rw [hwrap]
    rcases le_or_lt (v * 32768) 32767 with hle | hgt
    · have hc : clampSample v = v * 32768 := by
        unfold clampSample
        rw [min_eq_right hle, max_eq_right hq1]
      rw [← hc]
      exact htrunc
    · have hc : clampSample v = 32767 := by
        unfold clampSample
        rw [min_eq_left (le_of_lt hgt), max_eq_right (by norm_num)]
      have hj : jsTrunc (clampSample v) = 32767 := by
        rw [hc]
        unfold jsTrunc
        rw [if_pos (by norm_num)]
        norm_num
      rw [hj]
      rw [abs_le]
      refine ⟨?_, ?_⟩ <;> push_cast <;> linarith
  have h32 : (0 : ℚ) < 32768 := by norm_num
  have hfin : (toInt16 (clampSample v) : ℚ) / 32768 - v =
      ((toInt16 (clampSample v) : ℚ) - v * 32768) / 32768 := by ring
  rw [hfin, abs_div, abs_of_pos h32]
  linarith

lemma decode_encode (b : List Nat) (hb : ∀ x ∈ b, x < 256) :
    decode (encode b) = .ok b := by
  unfold decode encode
  rw [atob_btoa b hb]

lemma int16sToBytes_length (zs : List ℤ) :
    (int16sToBytes zs).length = 2 * zs.length := by
  induction zs with
  | nil => rfl
  | cons z rest ih =>
      unfold int16sToBytes at *
      rw [List.flatMap_cons, List.length_append, ih, int16ToBytes]
      simp
      omega

lemma createBlobInt16_range (S : List ℚ) :
    ∀ z ∈ createBlobInt16 S, -32768 ≤ z ∧ z ≤ 32767 := by
  intro z hz
  unfold createBlobInt16 at hz
  rw [List.mem_map] at hz
  obtain ⟨v, _, rfl⟩ := hz
  exact toInt16_range _

lemma decodePCMMono_createBlob (S : List ℚ) :
    decodePCMMono (int16sToBytes (createBlobInt16 S)) =
      S.map (fun v => (toInt16 (clampSample v) : ℚ) / 32768) := by
  unfold decodePCMMono
  rw [bytesToInt16List_int16sToBytes _ (createBlobInt16_range S)]
  unfold createBlobInt16
  rw [List.map_map]
  rfl

/-- C10: the base64 byte-level helpers `encode` and `decode` are mutual
inverses on arbitrary byte arrays, so no byte-level information is lost
between packing a PCM frame and unpacking it. -/
theorem decode_encode_roundtrip (b : List Nat) (hb : ∀ x ∈ b, x < 256) :
    decode (encode b) = .ok b :=
  decode_encode b hb

/-- Witness for C10 at a concrete byte array. -/
theorem decode_encode_roundtrip_witness :
    (∀ x ∈ [0, 1, 61, 127, 128, 255], x < 256) ∧
      decode (encode [0, 1, 61, 127, 128, 255]) = .ok [0, 1, 61, 127, 128, 255] :=
  ⟨by decide, decode_encode_roundtrip [0, 1, 61, 127, 128, 255] (by decide)⟩

/-- C1: encoding samples in [-1, 1] with `createBlob` (clamp, scale to
little-endian int16, base64) and decoding the resulting bytes with the
int16-to-float conversion of `decodeAudioData` (division by 32768) yields a
sequence of the same length whose entries are within 1/32768 of the
original samples; moreover on nonempty input the full `decodeAudioData`
produces exactly that sequence as the single channel. -/
theorem createBlob_decode_quantization (S : List ℚ)
    (hS : ∀ v ∈ S, -1 ≤ v ∧ v ≤ 1) :
    ∃ bytes,
      decode (createBlobData S) = Except.ok bytes ∧
      (decodePCMMono bytes).length = S.length ∧
      (∀ i (h1 : i < (decodePCMMono bytes).length) (h2 : i < S.length),
        |(decodePCMMono bytes).get ⟨i, h1⟩ - S.get ⟨i, h2⟩| ≤ 1 / 32768) ∧
      (S ≠ [] → ∀ r, decodeAudioDataE bytes r 1 =
        Except.ok ⟨1, r, S.length, [decodePCMMono bytes]⟩) := by
  refine ⟨int16sToBytes (createBlobInt16 S), ?_, ?_, ?_, ?_⟩
  · unfold createBlobData
    exact decode_encode _ (int16sToBytes_lt _)
  · rw [decodePCMMono_createBlob]
    simp
  · intro i h1 h2
    rw [List.get_eq_getElem, List.get_eq_getElem]
    have h1' : i < (S.map (fun v => (toInt16 (clampSample v) : ℚ) / 32768)).length := by
      rw [← decodePCMMono_createBlob]
      exact h1
    have : (decodePCMMono (int16sToBytes (createBlobInt16 S)))[i] =
        (S.map (fun v => (toInt16 (clampSample v) : ℚ) / 32768))[i] := by
      congr 1
      exact decodePCMMono_createBlob S
    rw [this, List.getElem_map]
    have hv := hS S[i] (List.getElem_mem h2)
    exact toInt16_clamp_close _ hv.1 hv.2
  · intro hne r
    have hlen : (int16sToBytes (createBlobInt16 S)).length = 2 * S.length := by
      rw [int16sToBytes_length]
      simp [createBlobInt16]
    have hlen16 : (createBlobInt16 S).length = S.length := by
      simp [createBlobInt16]
    have hpos : ¬(S.length = 0) := fun h => hne (List.length_eq_zero.mp h)
    have hbl : bytesToInt16List (int16sToBytes (createBlobInt16 S)) =
        createBlobInt16 S := bytesToInt16List_int16sToBytes _ (createBlobInt16_range S)
    have hspc : 2 * S.length / 2 / 1 = S.length := by omega
    have hch : ((createBlobInt16 S).take (S.length)).map (fun (z : ℤ) => (z : ℚ) / 32768) =
        decodePCMMono (int16sToBytes (createBlobInt16 S)) := by
      rw [← hlen16, List.take_length]
      unfold decodePCMMono
      rw [hbl]
    simp only [decodeAudioDataE, hlen, hspc, hbl, hch, hpos, if_false, if_true]

/-- Witness for C1 at a concrete sample list. -/
theorem createBlob_decode_quantization_witness :
    (∀ v ∈ [(1 : ℚ), -1, 1/3], -1 ≤ v ∧ v ≤ 1) ∧
      (∃ bytes,
        decode (createBlobData [(1 : ℚ), -1, 1/3]) = Except.ok bytes ∧
        (decodePCMMono bytes).length = ([(1 : ℚ), -1, 1/3]).length ∧
        (∀ i (h1 : i < (decodePCMMono bytes).length)
            (h2 : i < ([(1 : ℚ), -1, 1/3]).length),
          |(decodePCMMono bytes).get ⟨i, h1⟩ -
            ([(1 : ℚ), -1, 1/3]).get ⟨i, h2⟩| ≤ 1 / 32768) ∧
        (([(1 : ℚ), -1, 1/3]) ≠ [] → ∀ r,
          decodeAudioDataE bytes r 1 =
            Except.ok ⟨1, r, ([(1 : ℚ), -1, 1/3]).length,
              [decodePCMMono bytes]⟩)) :=
  ⟨by intro v hv; fin_cases hv <;> norm_num,
   createBlob_decode_quantization [(1 : ℚ), -1, 1/3]
     (by intro v hv; fin_cases hv <;> norm_num)⟩

/-! ### Inbound message shapes and mime-type rate parsing -/

/-- Code units of a string literal. -/
def strCodes (s : String) : List Nat :=
  s.data.map Char.toNat

/-- Default inbound mime type `audio/pcm;rate=24000`. -/
def defaultMime : List Nat := strCodes "audio/pcm;rate=24000"

/-- Code units of `rate=`. -/
def rateMarker : List Nat := strCodes "rate="

/-- ASCII decimal digit test. -/
def isDigitCode (c : Nat) : Bool :=
  decide (48 ≤ c) && decide (c ≤ 57)

/-- Value of a digit string, as `parseInt(s, 10)` on a nonempty digit
string. -/
def digitsToNat (ds : List Nat) : Nat :=
  ds.foldl (fun acc c => acc * 10 + (c - 48)) 0

/-- Attempt of the regex `rate=(\d+)` anchored at the head of the list. -/
def matchRateAt (l : List Nat) : Option Nat :=
  if l.take 5 = rateMarker then
    if ((l.drop 5).takeWhile isDigitCode).isEmpty then none
    else some (digitsToNat ((l.drop 5).takeWhile isDigitCode))
  else none

/-- Model of `mime.match(/rate=(\d+)/)`: first position where the pattern
matches wins. -/
def findRate : List Nat → Option Nat
  | [] => none
  | c :: rest =>
      match matchRateAt (c :: rest) with
      | some n => some n
      | none => findRate rest

/-- Sample-rate selection of the handler: default 24000, overridden by a
`rate=<n>` parameter found in the mime type. -/
def parseRate (mime : List Nat) : Nat :=
  (findRate mime).getD 24000

/-- A `{ data, mimeType }` blob inside an inbound message part. -/
structure MediaBlob where
  data : Option (List Nat)
  mimeType : Option (List Nat)
  deriving Repr, DecidableEq

/-- One entry of `serverContent.modelTurn.parts`. -/
structure MsgPart where
  inlineData : Option MediaBlob
  audio : Option MediaBlob
  text : Option (List Nat)
  deriving Repr, DecidableEq

/-- The `serverContent.modelTurn` object. -/
structure ModelTurn where
  parts : Option (List MsgPart)
  deriving Repr, DecidableEq

/-- The `serverContent` object of an inbound message. -/
structure ServerContent where
  modelTurn : Option ModelTurn
  interrupted : Bool
  turnComplete : Bool
  deriving Repr, DecidableEq

/-- An inbound message: optional `serverContent` and optional top-level
`data`. -/
structure GeminiMessage where
  serverContent : Option ServerContent
  data : Option (List Nat)
  deriving Repr, DecidableEq

/-- JavaScript truthiness of an optional string: present and nonempty. -/
def truthyStr : Option (List Nat) → Bool
  | some (_ :: _) => true
  | _ => false

/-- The optional chain `serverContent?.modelTurn?.parts?.[0]`. -/
def partsHead (m : GeminiMessage) : Option MsgPart :=
  m.serverContent.bind (fun sc => sc.modelTurn.bind (fun mt => mt.parts.bind List.head?))

/-- The optional chain down to `parts[0].inlineData`. -/
def inlineDataOf (m : GeminiMessage) : Option MediaBlob :=
  (partsHead m).bind MsgPart.inlineData

/-- The optional chain down to `parts[0].audio`. -/
def audioOf (m : GeminiMessage) : Option MediaBlob :=
  (partsHead m).bind MsgPart.audio

/-- Audio payload extraction of `handleGeminiMessage`: the three message
shapes are tried in the fixed order inlineData, audio, top-level data; the
mime type defaults to `audio/pcm;rate=24000` and is overridden by a truthy
`mimeType` of the matched blob in the first two shapes. -/
def extractAudio (m : GeminiMessage) : Option (List Nat × List Nat) :=
  if truthyStr ((inlineDataOf m).bind MediaBlob.data) then
    some (((inlineDataOf m).bind MediaBlob.data).getD [],
      if truthyStr ((inlineDataOf m).bind MediaBlob.mimeType) then
        ((inlineDataOf m).bind MediaBlob.mimeType).getD []
      else defaultMime)
  else if truthyStr ((audioOf m).bind MediaBlob.data) then
    some (((audioOf m).bind MediaBlob.data).getD [],
      if truthyStr ((audioOf m).bind MediaBlob.mimeType) then
        ((audioOf m).bind MediaBlob.mimeType).getD []
      else defaultMime)
  else if truthyStr m.data then
    some (m.data.getD [], defaultMime)
  else none

/-! ### Playback scheduler state -/

/-- One `AudioBufferSourceNode` tracked in `audioSourcesRef`. -/
structure Source where
  id : Nat
  startTime : ℚ
  duration : ℚ
  stopped : Bool
  deriving Repr, DecidableEq

/-- The playback-relevant session state: the `nextStartTimeRef` cursor, the
`isSpeaking` flag, the ordered contents of the `audioSourcesRef` set, a
ghost log of every source on which `stop()` was invoked, and a counter for
fresh source identities. -/
structure SessionAudioState where
  nextStartTime : ℚ
  isSpeaking : Bool
  activeSources : List Source
  stopLog : List Source
  fresh : Nat
  deriving Repr, DecidableEq

/-- State right after audio setup, with the device clock at zero. -/
def initialState : SessionAudioState := ⟨0, false, [], [], 0⟩

/-- `source.stop()`: throws if the source was already stopped. -/
def sourceStop (s : Source) : Except String Source :=
  if s.stopped then .error "InvalidStateError"
  else .ok { s with stopped := true }

/-- One iteration of the stop loop: `try { source.stop() } catch { ... }`;
the catch swallows the error. -/
def tryStop (s : Source) : Source :=
  match sourceStop s with
  | .ok s' => s'
  | .error _ => s

/-- The guarded block that stops and clears all currently playing sources,
run at the top of the audio-handling path of `handleGeminiMessage`. -/
def stopExisting (σ : SessionAudioState) : SessionAudioState :=
  if σ.activeSources.isEmpty then σ
  else { σ with activeSources := [],
                stopLog := σ.stopLog ++ σ.activeSources.map tryStop }

/-- The scheduling tail of successful audio handling: clamp the cursor to
the device clock, start a fresh source at the clamped cursor, advance the
cursor by the buffer duration, add the source to the set, set the speaking
flag. -/
def enqueueBuffer (σ : SessionAudioState) (now dur : ℚ) : SessionAudioState :=
  { σ with
      nextStartTime := max σ.nextStartTime now + dur,
      activeSources := σ.activeSources ++ [⟨σ.fresh, max σ.nextStartTime now, dur, false⟩],
      isSpeaking := true,
      fresh := σ.fresh + 1 }

/-- The `onended` callback of a source: delete it from the set; if the set
became empty, clear the speaking flag. -/
def onEnded (σ : SessionAudioState) (i : Nat) : SessionAudioState :=
  { σ with
      activeSources := σ.activeSources.filter (fun s => s.id ≠ i),
      isSpeaking :=
        if (σ.activeSources.filter (fun s => s.id ≠ i)).isEmpty then false
        else σ.isSpeaking }

/-- The `serverContent.interrupted` branch: stop and clear every active
source (each stop in its own try/catch), then reset the cursor to 0 and the
speaking flag to false unconditionally. -/
def handleInterrupted (σ : SessionAudioState) : SessionAudioState :=
  { stopExisting σ with nextStartTime := 0, isSpeaking := false }

/-- The interrupted branch in the exception monad: an uncaught exception
would surface as `.error`. -/
def handleInterruptedE (σ : SessionAudioState) : Except String SessionAudioState := do
  let σ1 ←
    if σ.activeSources.isEmpty then pure σ
    else pure { σ with activeSources := [],
                       stopLog := σ.stopLog ++ σ.activeSources.map tryStop }
  pure { σ1 with nextStartTime := 0, isSpeaking := false }

/-- The playback attempt on the AudioContext path: base64-decode the
payload, decode PCM at the rate parsed from the mime type (mono), schedule
the buffer.  Either decode step may fail. -/
def audioPlaybackAttempt (σ1 : SessionAudioState) (now : ℚ) (b64 mime : List Nat) :
    Except String SessionAudioState := do
  let bytes ← decode b64
  let buf ← decodeAudioDataE bytes (parseRate mime) 1
  pure (enqueueBuffer σ1 now buf.duration)

/-- Audio handling of one inbound payload on the AudioContext path: stop
existing sources, attempt decode and scheduling; on failure the error is
caught and HTML5 fallback playback is attempted, which on success only sets
the speaking flag and on failure only shows a toast. -/
def handleAudioCtx (σ : SessionAudioState) (now : ℚ) (b64 mime : List Nat)
    (fallbackOk : Bool) : SessionAudioState :=
  match audioPlaybackAttempt (stopExisting σ) now b64 mime with
  | .ok σ2 => σ2
  | .error _ =>
      if fallbackOk then { stopExisting σ with isSpeaking := true }
      else stopExisting σ

/-- Whole-message handling for the playback-relevant state: extract the
audio payload and process it, then handle an interruption signal. -/
def handleGeminiMessage (σ : SessionAudioState) (now : ℚ) (m : GeminiMessage)
    (fallbackOk : Bool) : SessionAudioState :=
  let σa :=
    match extractAudio m with
    | some (dataB64, mime) => handleAudioCtx σ now dataB64 mime fallbackOk
    | none => σ
  if (m.serverContent.map ServerContent.interrupted).getD false then
    handleInterrupted σa
  else σa

/-- Atomic per-callback events of a session, as seen by the scheduler
state. -/
inductive AudioEvent
  | audioOk (now dur : ℚ)
  | audioDecodeFail
  | fallbackPlayed
  | ended (i : Nat)
  | interrupted
  deriving Repr, DecidableEq

/-- Effect of one event on the scheduler state. -/
def stepEvent (σ : SessionAudioState) : AudioEvent → SessionAudioState
  | .audioOk now dur => enqueueBuffer (stopExisting σ) now dur
  | .audioDecodeFail => stopExisting σ
  | .fallbackPlayed => { stopExisting σ with isSpeaking := true }
  | .ended i => onEnded σ i
  | .interrupted => handleInterrupted σ

/-- Effect of a sequence of events. -/
def runEvents (σ : SessionAudioState) (es : List AudioEvent) : SessionAudioState :=
  es.foldl stepEvent σ

lemma tryStop_stopped (s : Source) : (tryStop s).stopped = true := by
  unfold tryStop sourceStop
  by_cases h : s.stopped = true
  · simp [h]
  · simp [h]

lemma stopExisting_eq (σ : SessionAudioState) :
    stopExisting σ = { σ with activeSources := [],
                              stopLog := σ.stopLog ++ σ.activeSources.map tryStop } := by
  obtain ⟨n, sp, act, log, fr⟩ := σ
  unfold stopExisting
  rcases act with _ | ⟨a, act⟩
  · simp
  · simp

lemma handleInterruptedE_ok (σ : SessionAudioState) :
    handleInterruptedE σ = Except.ok (handleInterrupted σ) := by
  unfold handleInterruptedE handleInterrupted stopExisting
  split_ifs with h <;> rfl

/-- C3: handling a message with `serverContent.interrupted` raises no
exception; afterwards every previously active source has received a stop
call (a source that had already stopped is tolerated as a no-op), the
active set is empty, the cursor is reset to 0 and the speaking flag is
false; with an empty active set the stop log is untouched and the resets
still happen. -/
theorem interrupted_contract (σ : SessionAudioState) :
    ∃ σ', handleInterruptedE σ = Except.ok σ' ∧
      σ' = handleInterrupted σ ∧
      σ'.activeSources = [] ∧
      σ'.nextStartTime = 0 ∧
      σ'.isSpeaking = false ∧
      (∀ s ∈ σ.activeSources, tryStop s ∈ σ'.stopLog ∧ (tryStop s).stopped = true) ∧
      (σ.activeSources = [] → σ'.stopLog = σ.stopLog) := by
  refine ⟨handleInterrupted σ, handleInterruptedE_ok σ, rfl, ?_, rfl, rfl, ?_, ?_⟩
  · show (stopExisting σ).activeSources = []
    rw [stopExisting_eq]
  · intro s hs
    refine ⟨?_, tryStop_stopped s⟩
    show tryStop s ∈ (stopExisting σ).stopLog
    rw [stopExisting_eq]
    exact List.mem_append_right _ (List.mem_map_of_mem tryStop hs)
  · intro h
    show (stopExisting σ).stopLog = σ.stopLog
    rw [stopExisting_eq, h]
    simp

/-- Witness for C3 at a state with one playing and one already stopped
source. -/
theorem interrupted_contract_witness :
    ∃ σ', handleInterruptedE ⟨5, true, [⟨0, 0, 1, false⟩, ⟨1, 1, 1, true⟩], [], 2⟩ =
        Except.ok σ' ∧
      σ' = handleInterrupted ⟨5, true, [⟨0, 0, 1, false⟩, ⟨1, 1, 1, true⟩], [], 2⟩ ∧
      σ'.activeSources = [] ∧
      σ'.nextStartTime = 0 ∧
      σ'.isSpeaking = false ∧
      (∀ s ∈ (⟨5, true, [⟨0, 0, 1, false⟩, ⟨1, 1, 1, true⟩], [], 2⟩ :
          SessionAudioState).activeSources,
        tryStop s ∈ σ'.stopLog ∧ (tryStop s).stopped = true) ∧
      ((⟨5, true, [⟨0, 0, 1, false⟩, ⟨1, 1, 1, true⟩], [], 2⟩ :
          SessionAudioState).activeSources = [] → σ'.stopLog = []) :=
  interrupted_contract _

lemma stepEvent_audioOk (σ : SessionAudioState) (now dur : ℚ) :
    stepEvent σ (.audioOk now dur) =
      { σ with
          nextStartTime := max σ.nextStartTime now + dur,
          activeSources := [⟨σ.fresh, max σ.nextStartTime now, dur, false⟩],
          isSpeaking := true,
          stopLog := σ.stopLog ++ σ.activeSources.map tryStop,
          fresh := σ.fresh + 1 } := by
  show enqueueBuffer (stopExisting σ) now dur = _
  rw [stopExisting_eq]
  unfold enqueueBuffer
  simp

lemma stepEvent_audioOk_next (σ : SessionAudioState) (now dur : ℚ) :
    (stepEvent σ (.audioOk now dur)).nextStartTime = max σ.nextStartTime now + dur := by
  rw [stepEvent_audioOk]

/-- Start times assigned by a run of back-to-back audio messages, read off
the source that each handling step adds to the active set. -/
def startsOf : SessionAudioState → List (ℚ × ℚ) → List ℚ
  | _, [] => []
  | σ, (now, dur) :: rest =>
      ((stepEvent σ (.audioOk now dur)).activeSources.getLastD ⟨0, 0, 0, false⟩).startTime ::
      startsOf (stepEvent σ (.audioOk now dur)) rest

lemma startsOf_nil (σ : SessionAudioState) : startsOf σ [] = [] := rfl

lemma startsOf_cons (σ : SessionAudioState) (now dur : ℚ) (rest : List (ℚ × ℚ)) :
    startsOf σ ((now, dur) :: rest) =
      max σ.nextStartTime now :: startsOf (stepEvent σ (.audioOk now dur)) rest := by
  rw [startsOf, stepEvent_audioOk]
  rfl

lemma startsOf_contiguous : ∀ (items : List (ℚ × ℚ)) (σ : SessionAudioState),
    List.Chain' (fun p q => q.2.1 ≤ p.1 + p.2.2) ((startsOf σ items).zip items) →
    List.Chain' (fun p q => q.1 = p.1 + p.2.2) ((startsOf σ items).zip items) := by
  intro items
  induction items with
  | nil =>
      intro σ _
      simp [startsOf]
  | cons x xs ih =>
      obtain ⟨now1, d1⟩ := x
      rcases xs with _ | ⟨⟨now2, d2⟩, ys⟩
      · intro σ _
        simp [startsOf_cons, startsOf_nil]

      · intro σ h
        simp only [startsOf_cons, List.zip_cons_cons, List.chain'_cons,
          stepEvent_audioOk_next] at h ⊢
        obtain ⟨h1, h2⟩ := h
        refine ⟨max_eq_left h1, ?_⟩
        have := ih (stepEvent σ (.audioOk now1 d1))
        simp only [startsOf_cons, List.zip_cons_cons, List.chain'_cons,
          stepEvent_audioOk_next] at this
        exact this h2

lemma startsOf_nonoverlap : ∀ (items : List (ℚ × ℚ)) (σ : SessionAudioState),
    List.Chain' (fun p q => p.1 + p.2.2 ≤ q.1) ((startsOf σ items).zip items) := by
  intro items
  induction items with
  | nil =>
      intro σ
      simp [startsOf]
  | cons x xs ih =>
      obtain ⟨now1, d1⟩ := x
      rcases xs with _ | ⟨⟨now2, d2⟩, ys⟩
      · intro σ
        simp [startsOf_cons, startsOf_nil]
      · intro σ
        simp only [startsOf_cons, List.zip_cons_cons, List.chain'_cons,
          stepEvent_audioOk_next]
        refine ⟨le_max_left _ _, ?_⟩
        have := ih (stepEvent σ (.audioOk now1 d1))
        simp only [startsOf_cons, List.zip_cons_cons, stepEvent_audioOk_next] at this
        exact this

/-- C4 counterexample: two messages with no interruption in between, the
second arriving at device time 2 after the first buffer (start 0, duration
1) has already ended; the clamp picks the device clock, the second start is
2 rather than `start_1 + d_1 = 1`, so the unconditional contiguity claim is
false. -/
theorem late_arrival_breaks_contiguity :
    startsOf initialState ([(0, 1), (2, 1)] : List (ℚ × ℚ)) = [0, 2] ∧
    ¬ List.Chain' (fun p q => q.1 = p.1 + p.2.2)
      ((startsOf initialState ([(0, 1), (2, 1)] : List (ℚ × ℚ))).zip
        ([(0, 1), (2, 1)] : List (ℚ × ℚ))) := by
  have h : startsOf initialState ([(0, 1), (2, 1)] : List (ℚ × ℚ)) = [0, 2] := by
    simp only [startsOf_cons, startsOf_nil, stepEvent_audioOk_next, initialState]
    norm_num
  refine ⟨h, ?_⟩
  rw [h]
  simp only [List.zip_cons_cons, List.zip_nil_right, List.chain'_cons,
    List.chain'_singleton, and_true]
  norm_num

/-- C4 amended: every enqueue starts the new source at `max(nextStartTime,
currentTime)` and advances the cursor by exactly the buffer duration;
consecutive enqueues never overlap (`start_(i+1) ≥ start_i + d_i`), and
they are gaplessly contiguous (`start_(i+1) = start_i + d_i`) exactly in
runs in which each message arrives no later than the end of the previously
scheduled buffer — a later arrival is clamped to the device clock instead;
an enqueue right after an interrupt never starts before the device
clock. -/
theorem enqueue_schedule_contract :
    (∀ (σ : SessionAudioState) (now dur : ℚ),
      (enqueueBuffer σ now dur).activeSources =
        σ.activeSources ++ [⟨σ.fresh, max σ.nextStartTime now, dur, false⟩] ∧
      (enqueueBuffer σ now dur).nextStartTime = max σ.nextStartTime now + dur) ∧
    (∀ (σ : SessionAudioState) (items : List (ℚ × ℚ)),
      List.Chain' (fun p q => q.2.1 ≤ p.1 + p.2.2) ((startsOf σ items).zip items) →
      List.Chain' (fun p q => q.1 = p.1 + p.2.2) ((startsOf σ items).zip items)) ∧
    (∀ (σ : SessionAudioState) (items : List (ℚ × ℚ)),
      List.Chain' (fun p q => p.1 + p.2.2 ≤ q.1) ((startsOf σ items).zip items)) ∧
    (∀ (σ : SessionAudioState) (now dur : ℚ),
      ∃ s, (enqueueBuffer (handleInterrupted σ) now dur).activeSources.getLast? =
          some s ∧ now ≤ s.startTime) := by
  refine ⟨fun σ now dur => ⟨rfl, rfl⟩, fun σ items h => startsOf_contiguous items σ h,
    fun σ items => startsOf_nonoverlap items σ, ?_⟩
  intro σ now dur
  refine ⟨⟨(handleInterrupted σ).fresh, max (handleInterrupted σ).nextStartTime now,
    dur, false⟩, ?_, ?_⟩
  · unfold enqueueBuffer
    simp
  · have h0 : (handleInterrupted σ).nextStartTime = 0 := rfl
    rw [h0]
    exact le_max_right 0 now

/-- Witness for C4 on two concrete back-to-back messages. -/
theorem enqueue_schedule_contract_witness :
    List.Chain' (fun p q => q.2.1 ≤ p.1 + p.2.2)
      ((startsOf initialState ([(0, 1), (1/2, 2)] : List (ℚ × ℚ))).zip
        ([(0, 1), (1/2, 2)] : List (ℚ × ℚ))) ∧
    List.Chain' (fun p q => q.1 = p.1 + p.2.2)
      ((startsOf initialState ([(0, 1), (1/2, 2)] : List (ℚ × ℚ))).zip
        ([(0, 1), (1/2, 2)] : List (ℚ × ℚ))) :=
  have h : List.Chain' (fun p q => q.2.1 ≤ p.1 + p.2.2)
      ((startsOf initialState ([(0, 1), (1/2, 2)] : List (ℚ × ℚ))).zip
        ([(0, 1), (1/2, 2)] : List (ℚ × ℚ))) := by
    simp only [startsOf_cons, startsOf_nil, stepEvent_audioOk_next, List.zip_cons_cons,
      List.chain'_cons, List.zip_nil_right, List.chain'_singleton, and_true,
      initialState]
    norm_num
  ⟨h, enqueue_schedule_contract.2.1 initialState ([(0, 1), (1/2, 2)] : List (ℚ × ℚ)) h⟩

lemma tryStop_fresh (i : Nat) (st d : ℚ) :
    tryStop ⟨i, st, d, false⟩ = ⟨i, st, d, true⟩ := by
  unfold tryStop sourceStop
  simp

/-- C2 counterexample: when a second audio message is handled while the
first buffer is still playing, the handler first force-stops and clears the
first source; across the whole trace the active set never holds two
entries, refuting the claim that it briefly contains 2 entries
simultaneously. -/
theorem second_message_never_two_active :
    (stepEvent initialState (.audioOk 0 1)).activeSources.length = 1 ∧
    (stopExisting (stepEvent initialState (.audioOk 0 1))).activeSources.length = 0 ∧
    (stepEvent (stepEvent initialState (.audioOk 0 1))
      (.audioOk (1/2) 1)).activeSources.length = 1 ∧
    (stepEvent (stepEvent initialState (.audioOk 0 1))
      (.audioOk (1/2) 1)).stopLog.map Source.stopped = [true] := by
  refine ⟨?_, ?_, ?_, ?_⟩ <;>
    simp [stepEvent_audioOk, stopExisting_eq, initialState, tryStop_fresh]

/-- C2 amended: handling a second audio message while the first buffer is
still playing force-stops and clears the first source, schedules the second
buffer to start exactly when the first would have ended, keeps the active
set at one entry, and keeps the speaking flag true throughout. -/
theorem second_message_schedule (σ0 : SessionAudioState)
    (h0 : σ0.activeSources = []) (now1 d1 now2 d2 : ℚ)
    (h2 : now2 ≤ max σ0.nextStartTime now1 + d1) :
    (stepEvent σ0 (.audioOk now1 d1)).activeSources =
      [⟨σ0.fresh, max σ0.nextStartTime now1, d1, false⟩] ∧
    (stepEvent σ0 (.audioOk now1 d1)).isSpeaking = true ∧
    (stopExisting (stepEvent σ0 (.audioOk now1 d1))).isSpeaking = true ∧
    (stopExisting (stepEvent σ0 (.audioOk now1 d1))).activeSources = [] ∧
    (stepEvent (stepEvent σ0 (.audioOk now1 d1)) (.audioOk now2 d2)).activeSources =
      [⟨σ0.fresh + 1, max σ0.nextStartTime now1 + d1, d2, false⟩] ∧
    (stepEvent (stepEvent σ0 (.audioOk now1 d1)) (.audioOk now2 d2)).isSpeaking = true ∧
    (stepEvent (stepEvent σ0 (.audioOk now1 d1)) (.audioOk now2 d2)).stopLog =
      σ0.stopLog ++ [⟨σ0.fresh, max σ0.nextStartTime now1, d1, true⟩] := by
  refine ⟨?_, ?_, ?_, ?_, ?_, ?_, ?_⟩ <;>
    simp [stepEvent_audioOk, stopExisting_eq, h0, tryStop_fresh, max_eq_left h2]

/-- Witness for C2 amended at concrete inputs. -/
theorem second_message_schedule_witness :
    ((initialState.activeSources = []) ∧ ((1:ℚ)/2 ≤ max initialState.nextStartTime 0 + 1)) ∧
    ((stepEvent (stepEvent initialState (.audioOk 0 1)) (.audioOk (1/2) 1)).activeSources =
      [⟨initialState.fresh + 1, max initialState.nextStartTime 0 + 1, 1, false⟩] ∧
     (stepEvent (stepEvent initialState (.audioOk 0 1)) (.audioOk (1/2) 1)).isSpeaking = true) :=
  have h2 : (1:ℚ)/2 ≤ max initialState.nextStartTime 0 + 1 := by
    simp [initialState]
    norm_num
  ⟨⟨rfl, h2⟩,
    ⟨(second_message_schedule initialState rfl 0 1 (1/2) 1 h2).2.2.2.2.1,
     (second_message_schedule initialState rfl 0 1 (1/2) 1 h2).2.2.2.2.2.1⟩⟩

/-- The invariant claimed by the spec: speaking iff some source is
active. -/
def speakingInv (σ : SessionAudioState) : Prop :=
  σ.isSpeaking = true ↔ σ.activeSources ≠ []

/-- C8 counterexample: after an enqueue followed by a failed decode of the
next message, the handler has stopped and cleared the active set while the
speaking flag is still true; likewise a successful fallback playback sets
the speaking flag with no active source.  The claimed invariant is false at
these reachable states. -/
theorem speaking_invariant_cex :
    (runEvents initialState [.audioOk 0 1, .audioDecodeFail]).isSpeaking = true ∧
    (runEvents initialState [.audioOk 0 1, .audioDecodeFail]).activeSources = [] ∧
    (stepEvent initialState .fallbackPlayed).isSpeaking = true ∧
    (stepEvent initialState .fallbackPlayed).activeSources = [] ∧
    ¬ speakingInv (runEvents initialState [.audioOk 0 1, .audioDecodeFail]) := by
  have h1 : runEvents initialState [.audioOk 0 1, .audioDecodeFail] =
      stopExisting (stepEvent initialState (.audioOk 0 1)) := rfl
  have h2 : stepEvent initialState .fallbackPlayed =
      { stopExisting initialState with isSpeaking := true } := rfl
  rw [h1, h2]
  refine ⟨?_, ?_, ?_, ?_, ?_⟩ <;>
    simp [speakingInv, stepEvent_audioOk, stopExisting_eq, initialState]

lemma stepEvent_preserves_inv (σ : SessionAudioState) (e : AudioEvent)
    (he : e ≠ .audioDecodeFail ∧ e ≠ .fallbackPlayed) (h : speakingInv σ) :
    speakingInv (stepEvent σ e) := by
  cases e with
  | audioOk now dur =>
      rw [speakingInv, stepEvent_audioOk]
      simp
  | audioDecodeFail => exact absurd rfl he.1
  | fallbackPlayed => exact absurd rfl he.2
  | ended i =>
      show speakingInv (onEnded σ i)
      unfold speakingInv onEnded
      by_cases hact : (σ.activeSources.filter (fun s => s.id ≠ i)).isEmpty
      · have hf : σ.activeSources.filter (fun s => s.id ≠ i) = [] := by
          simpa using hact
        rw [if_pos hact, hf]
        simp
      · have hne : σ.activeSources.filter (fun s => s.id ≠ i) ≠ [] := by
          intro hc
          rw [hc] at hact
          exact hact rfl
        have hne0 : σ.activeSources ≠ [] := by
          intro hc
          simp [hc] at hne
        rw [if_neg hact]
        exact iff_of_true (h.mpr hne0) hne
  | interrupted =>
      show speakingInv (handleInterrupted σ)
      unfold speakingInv handleInterrupted
      rw [stopExisting_eq]
      simp

/-- C8 amended: over every run built from successful enqueues, natural
source completions and interruptions, the speaking flag is true exactly
when the active set is nonempty; the decode-failure and fallback paths are
the exceptions refuting the unrestricted claim. -/
theorem speaking_invariant_restricted (es : List AudioEvent)
    (hes : ∀ e ∈ es, e ≠ .audioDecodeFail ∧ e ≠ .fallbackPlayed)
    (σ : SessionAudioState) (h : speakingInv σ) :
    speakingInv (runEvents σ es) := by
  induction es generalizing σ with
  | nil => exact h
  | cons e rest ih =>
      have he := hes e (by simp)
      have hrest : ∀ e ∈ rest, e ≠ .audioDecodeFail ∧ e ≠ .fallbackPlayed :=
        fun e hm => hes e (by simp [hm])
      show speakingInv (runEvents (stepEvent σ e) rest)
      exact ih hrest _ (stepEvent_preserves_inv σ e he h)

/-- Witness for C8 amended on a concrete run. -/
theorem speaking_invariant_restricted_witness :
    (∀ e ∈ ([.audioOk 0 1, .audioOk 2 1, .interrupted, .ended 5] : List AudioEvent),
      e ≠ .audioDecodeFail ∧ e ≠ .fallbackPlayed) ∧
    speakingInv initialState ∧
    speakingInv (runEvents initialState
      [.audioOk 0 1, .audioOk 2 1, .interrupted, .ended 5]) :=
  have h0 : speakingInv initialState := by simp [speakingInv, initialState]
  have hes : ∀ e ∈ ([.audioOk 0 1, .audioOk 2 1, .interrupted, .ended 5] : List AudioEvent),
      e ≠ .audioDecodeFail ∧ e ≠ .fallbackPlayed := by
    intro e he
    fin_cases he <;> exact ⟨by simp, by simp⟩
  ⟨hes, h0, speaking_invariant_restricted _ hes initialState h0⟩

lemma decodeAudioDataE_short (B : List Nat) (rate ch : Nat) (h1 : 1 ≤ ch)
    (h2 : B.length < 2 * ch) :
    decodeAudioDataE B rate ch =
      Except.error "Audio decoding failed: Invalid audio data length" := by
  have h2' : B.length / 2 < ch := by omega
  have h : B.length / 2 / ch = 0 := Nat.div_eq_of_lt h2'
  simp [decodeAudioDataE, h]

lemma handleAudioCtx_decode_fail (σ : SessionAudioState) (now : ℚ)
    (b64 mime B : List Nat) (hb : decode b64 = Except.ok B) (hlen : B.length < 2) :
    handleAudioCtx σ now b64 mime false = stopExisting σ := by
  have hdec := decodeAudioDataE_short B (parseRate mime) 1 (by norm_num) (by omega)
  unfold handleAudioCtx audioPlaybackAttempt
  rw [hb]
  simp [hdec, Bind.bind, Except.bind, Functor.map, Except.map]

/-- C5 amended: a byte sequence shorter than `2 * channelCount` makes
`decodeAudioData` fail with the invalid-audio-data error rather than
producing an empty buffer, and the failure is caught inside the handling of
that one message, leaving the cursor and the speaking flag unchanged — but
the handler has already force-stopped and cleared the active sources before
decoding, so the active set is emptied by the failed segment. -/
theorem decode_failure_contract :
    (∀ (B : List Nat) (rate ch : Nat), 1 ≤ ch → B.length < 2 * ch →
      decodeAudioDataE B rate ch =
        Except.error "Audio decoding failed: Invalid audio data length") ∧
    (∀ (σ : SessionAudioState) (now : ℚ) (b64 mime B : List Nat),
      decode b64 = Except.ok B → B.length < 2 →
      handleAudioCtx σ now b64 mime false = stopExisting σ ∧
      (handleAudioCtx σ now b64 mime false).nextStartTime = σ.nextStartTime ∧
      (handleAudioCtx σ now b64 mime false).isSpeaking = σ.isSpeaking ∧
      (handleAudioCtx σ now b64 mime false).activeSources = []) := by
  refine ⟨fun B rate ch h1 h2 => decodeAudioDataE_short B rate ch h1 h2, ?_⟩
  intro σ now b64 mime B hb hlen
  have h := handleAudioCtx_decode_fail σ now b64 mime B hb hlen
  refine ⟨h, ?_, ?_, ?_⟩ <;> rw [h, stopExisting_eq]

/-- Witness for C5 amended at a concrete short payload. -/
theorem decode_failure_contract_witness :
    (decode (btoaBytes [7]) = Except.ok [7] ∧ ([7] : List Nat).length < 2) ∧
    (handleAudioCtx ⟨3, true, [⟨0, 0, 2, false⟩], [], 1⟩ 1 (btoaBytes [7])
        defaultMime false =
      stopExisting ⟨3, true, [⟨0, 0, 2, false⟩], [], 1⟩ ∧
     (handleAudioCtx ⟨3, true, [⟨0, 0, 2, false⟩], [], 1⟩ 1 (btoaBytes [7])
        defaultMime false).nextStartTime = 3 ∧
     (handleAudioCtx ⟨3, true, [⟨0, 0, 2, false⟩], [], 1⟩ 1 (btoaBytes [7])
        defaultMime false).isSpeaking = true ∧
     (handleAudioCtx ⟨3, true, [⟨0, 0, 2, false⟩], [], 1⟩ 1 (btoaBytes [7])
        defaultMime false).activeSources = []) :=
  ⟨⟨rfl, by decide⟩,
   decode_failure_contract.2 ⟨3, true, [⟨0, 0, 2, false⟩], [], 1⟩ 1 (btoaBytes [7])
     defaultMime [7] rfl (by decide)⟩

/-- C5 counterexample: with one source playing, handling a message whose
one-byte payload fails to decode stops that source and empties the active
set, so the scheduler state is not left unaffected by the failed
segment. -/
theorem decode_failure_corrupts_scheduler :
    (⟨3, true, [⟨0, 0, 2, false⟩], [], 1⟩ : SessionAudioState).activeSources ≠ [] ∧
    (handleAudioCtx ⟨3, true, [⟨0, 0, 2, false⟩], [], 1⟩ 1 (btoaBytes [7])
      defaultMime false).activeSources = [] ∧
    (handleAudioCtx ⟨3, true, [⟨0, 0, 2, false⟩], [], 1⟩ 1 (btoaBytes [7])
      defaultMime false).stopLog.map Source.stopped = [true] := by
  have h := handleAudioCtx_decode_fail ⟨3, true, [⟨0, 0, 2, false⟩], [], 1⟩ 1
    (btoaBytes [7]) defaultMime [7] rfl (by decide)
  rw [h, stopExisting_eq]
  refine ⟨by simp, rfl, ?_⟩
  simp [tryStop_fresh]

/-- C7: evaluation of `decodeAudioData` at a two-channel input.  The bytes
encode the interleaved samples 100, 200, 300, 400, so round-robin
de-interleaving should give channels [100, 300]/32768 and [200, 400]/32768;
the code converts only `samplesPerChannel` samples and reads past the end
of that array (`?? 0`), producing zeros instead of the samples 300 and
400. -/
theorem decodeAudioData_deinterleave_bug :
    bytesToInt16List [100, 0, 200, 0, 44, 1, 144, 1] = [100, 200, 300, 400] ∧
    decodeAudioDataE [100, 0, 200, 0, 44, 1, 144, 1] 24000 2 =
      Except.ok ⟨2, 24000, 2, [[100/32768, 0], [200/32768, 0]]⟩ ∧
    (0 : ℚ) ≠ (300 : ℚ) / 32768 := by
  have hI : bytesToInt16List [100, 0, 200, 0, 44, 1, 144, 1] =
      [100, 200, 300, 400] := by
    norm_num [bytesToInt16List, bytesToInt16]
  refine ⟨hI, ?_, by norm_num⟩
  simp only [decodeAudioDataE, hI]
  norm_num [List.range_succ]

lemma truthyStr_of_ne (d : List Nat) (h : d ≠ []) : truthyStr (some d) = true := by
  cases d with
  | nil => exact absurd rfl h
  | cons c cs => rfl

/-- C6: the audio payload is extracted in the fixed priority order
inlineData, audio, top-level data, using the first shape whose `data` is
truthy; a `rate=<n>` parameter in the matched mime type overrides the
default playback rate of 24000; and the top-level data shape keeps the
default mime and is therefore decoded at 24000. -/
theorem extract_priority :
    (∀ (m : GeminiMessage) (b : MediaBlob) (d : List Nat),
      inlineDataOf m = some b → b.data = some d → d ≠ [] →
      extractAudio m = some (d,
        if truthyStr b.mimeType then b.mimeType.getD [] else defaultMime)) ∧
    (∀ (m : GeminiMessage) (b : MediaBlob) (d : List Nat),
      truthyStr ((inlineDataOf m).bind MediaBlob.data) = false →
      audioOf m = some b → b.data = some d → d ≠ [] →
      extractAudio m = some (d,
        if truthyStr b.mimeType then b.mimeType.getD [] else defaultMime)) ∧
    (∀ (m : GeminiMessage) (d : List Nat),
      truthyStr ((inlineDataOf m).bind MediaBlob.data) = false →
      truthyStr ((audioOf m).bind MediaBlob.data) = false →
      m.data = some d → d ≠ [] →
      extractAudio m = some (d, defaultMime)) ∧
    (∀ (mime : List Nat) (n : Nat), findRate mime = some n → parseRate mime = n) ∧
    parseRate defaultMime = 24000 ∧
    parseRate (strCodes "audio/pcm;rate=16000") = 16000 := by
  refine ⟨?_, ?_, ?_, ?_, ?_, ?_⟩
  · intro m b d hin hd hne
    unfold extractAudio
    rw [hin]
    simp only [Option.some_bind, hd, truthyStr_of_ne d hne, if_true, Option.getD_some]
  · intro m b d hno hau hd hne
    unfold extractAudio
    rw [hno, hau]
    simp only [Option.some_bind, hd, truthyStr_of_ne d hne, if_true, if_false,
      Option.getD_some, Bool.false_eq_true]
  · intro m d hno1 hno2 hd hne
    unfold extractAudio
    rw [hno1, hno2, hd]
    simp only [truthyStr_of_ne d hne, if_true, if_false, Option.getD_some,
      Bool.false_eq_true]
  · intro mime n h
    unfold parseRate
    rw [h]
    rfl
  · decide
  · decide

/-- Witness for C6 on a concrete message carrying all three shapes at
once. -/
theorem extract_priority_witness :
    (inlineDataOf ⟨some ⟨some ⟨some [⟨some ⟨some [1], some (strCodes "audio/pcm;rate=16000")⟩,
          some ⟨some [2], none⟩, none⟩]⟩, false, false⟩, some [3]⟩ =
      some ⟨some [1], some (strCodes "audio/pcm;rate=16000")⟩) ∧
    extractAudio ⟨some ⟨some ⟨some [⟨some ⟨some [1], some (strCodes "audio/pcm;rate=16000")⟩,
          some ⟨some [2], none⟩, none⟩]⟩, false, false⟩, some [3]⟩ =
      some ([1], strCodes "audio/pcm;rate=16000") ∧
    parseRate (strCodes "audio/pcm;rate=16000") = 16000 :=
  have hin : inlineDataOf ⟨some ⟨some ⟨some [⟨some ⟨some [1], some (strCodes "audio/pcm;rate=16000")⟩,
          some ⟨some [2], none⟩, none⟩]⟩, false, false⟩, some [3]⟩ =
      some ⟨some [1], some (strCodes "audio/pcm;rate=16000")⟩ := rfl
  ⟨hin,
   extract_priority.1 _ _ [1] hin rfl (by decide),
   extract_priority.2.2.2.2.2⟩

/-! ### Capture callback -/

/-- The `{ data, mimeType }` object produced by `createBlob`. -/
structure CapturePacket where
  data : List Nat
  mimeType : List Nat
  deriving Repr, DecidableEq

/-- Source function `createBlob`, packaging the encoded bytes with the
fixed capture mime type. -/
def createBlob (data : List ℚ) : CapturePacket :=
  ⟨createBlobData data, strCodes "audio/pcm;rate=16000"⟩

/-- Observable outcome of one invocation of the `onaudioprocess`
callback. -/
structure CallbackOutcome where
  sentPacket : Option CapturePacket
  warned : Bool
  escapedError : Option String
  deriving Repr, DecidableEq

/-- The periodic capture callback: only when the recording flag is true and
a live session handle exists does it encode the block and hand the packet
to the session send; an error thrown by encoding or sending is caught and
logged by the surrounding try/catch, so no exception escapes into the audio
graph. -/
def onAudioProcess (recording sessionLive : Bool) (block : List ℚ)
    (sendOutcome : Except String Unit) : CallbackOutcome :=
  if recording && sessionLive then
    match sendOutcome with
    | .ok _ => ⟨some (createBlob block), false, none⟩
    | .error _ => ⟨some (createBlob block), true, none⟩
  else ⟨none, false, none⟩

/-- C9: a packet is built and handed to the session exactly when the
recording flag is true and a live session handle exists, and no exception
ever escapes the callback, whatever the send does. -/
theorem capture_callback_contract (recording sessionLive : Bool) (block : List ℚ)
    (sendOutcome : Except String Unit) :
    ((onAudioProcess recording sessionLive block sendOutcome).sentPacket =
        some (createBlob block) ↔ (recording = true ∧ sessionLive = true)) ∧
    (onAudioProcess recording sessionLive block sendOutcome).escapedError = none ∧
    ((onAudioProcess recording sessionLive block sendOutcome).warned = true ↔
      (recording = true ∧ sessionLive = true ∧ ∃ e, sendOutcome = .error e)) := by
  cases recording <;> cases sessionLive <;> cases sendOutcome <;>
    simp [onAudioProcess]

/-- Witness for C9 with a failing send. -/
theorem capture_callback_contract_witness :
    (onAudioProcess true true [1/2] (.error "network")).sentPacket =
        some (createBlob [1/2]) ∧
    (onAudioProcess true true [1/2] (.error "network")).escapedError = none ∧
    (onAudioProcess true true [1/2] (.error "network")).warned = true :=
  ⟨((capture_callback_contract true true [1/2] (.error "network")).1).mpr ⟨rfl, rfl⟩,
   (capture_callback_contract true true [1/2] (.error "network")).2.1,
   ((capture_callback_contract true true [1/2] (.error "network")).2.2).mpr
     ⟨rfl, rfl, "network", rfl⟩⟩

end Catalyst
